import Mathlib

/-!
Shallow embedding of the Customized Children's Story Generator
(src/index.tsx): the React `App` component's controller state, its three
event handlers (`handleGenerateStory`, `handleReadAloud`,
`handleStopReading`) and the pure `highlightName` function.

Modelling conventions:
* The component's `useState` hooks and the `utteranceRef` become fields of
  `AppState`; an event handler becomes a function from `AppState` (plus the
  environment's responses) to a new `AppState` together with the ordered
  list of externally observable `Effect`s it performs.
* The streamed generation call is modelled by its outcome: either the
  stream delivers a list of chunks and is exhausted normally (`ok`), or it
  throws after delivering some chunks (`failAfter`) — a failure of the
  initial `generateContentStream` await is `failAfter []`.
* JavaScript strings are Lean `String`s (a wrapper around `List Char`);
  JS `toLowerCase`/regex-`i` case folding is modelled by `Char.toLower`,
  which agrees on ASCII.  The regex split `text.split(/(name)/gi)` is
  modelled for names without regex metacharacters by `splitCI`, the
  left-to-right greedy case-insensitive splitter, which like the JS
  `split`-with-capture-group keeps the matched separators and the (possibly
  empty) pieces between, before and after them.
-/

/-- Controller state: the four `useState` hooks plus `utteranceRef`
(the pending utterance is identified by its text). -/
structure AppState where
  name : String
  age : Nat
  interests : String
  story : String
  isLoading : Bool
  isReading : Bool
  error : Option String
  utterance : Option String
deriving DecidableEq

/-- Externally observable side effects of a handler run, in order:
the streaming generation request, each published story value
(a `setStory` call), starting a speech playback, and cancelling one. -/
inductive Effect where
  | streamRequest (model : String) (prompt : String) (sysInstr : String)
  | setStory (s : String)
  | speak (text : String)
  | cancelSpeech
deriving DecidableEq

/-- Outcome of the streamed generation call: the chunk texts delivered,
and whether the stream was exhausted normally or threw afterwards. -/
inductive StreamOutcome where
  | ok (chunks : List String)
  | failAfter (chunks : List String)
deriving DecidableEq

/-- The spec's RequestState enum. -/
inductive RequestState where
  | Idle
  | Loading
  | Error (msg : String)
deriving DecidableEq

/-- The spec's RequestState as read off the component state: `isLoading`
is Loading, otherwise a recorded error message is Error, otherwise Idle. -/
def requestStateOf (s : AppState) : RequestState :=
  if s.isLoading then RequestState.Loading
  else
    match s.error with
    | some m => RequestState.Error m
    | none => RequestState.Idle

/-- src/index.tsx line 24: the validation error message. -/
def validationMsg : String := "Please fill in the child\x27s name and interests."

/-- src/index.tsx line 51: the generation failure message. -/
def genErrorMsg : String :=
  "Sorry, something went wrong while creating the story. Please try again."

/-- src/index.tsx line 66: the speech failure message. -/
def speechErrorMsg : String :=
  "Sorry, an error occurred with the text-to-speech service."

/-- src/index.tsx line 33: the fixed system instruction. -/
def systemInstruction : String :=
  "You are a whimsical and creative storyteller for young children. Your stories are always positive, encouraging, and filled with wonder. They should be easy for a child to understand and should gently weave in a positive message about friendship, courage, or curiosity."

/-- src/index.tsx line 34: the interpolated prompt. -/
def mkPrompt (name : String) (age : Nat) (interests : String) : String :=
  "Create a short, magical story for " ++ name ++ ", who is " ++ toString age
    ++ " years old and loves " ++ interests ++ ". Make sure " ++ name
    ++ " is the hero of the story."

/-- The successive values of `fullStory` published by `setStory` inside the
streaming loop (lines 44-48): starting from accumulator `acc`, one value per
chunk. -/
def prefixConcatsFrom (acc : String) : List String → List String
  | [] => []
  | c :: cs => (acc ++ c) :: prefixConcatsFrom (acc ++ c) cs

/-- Left fold of string concatenation, as the streaming loop accumulates
`fullStory`. -/
def foldConcat (acc : String) : List String → String
  | [] => acc
  | c :: cs => foldConcat (acc ++ c) cs

/-- src/index.tsx lines 21-55, `handleGenerateStory`: validate, clear error,
set loading, clear story, issue the streaming request, append each chunk to
`fullStory` publishing it via `setStory`, record an error message on stream
failure, and clear `isLoading` in the `finally` block.  `isReading` and
`utterance` are not touched by this handler. -/
def handleGenerateStory (s : AppState) (outcome : StreamOutcome) :
    AppState × List Effect :=
  if s.name = "" ∨ s.interests = "" then
    ({ s with error := some validationMsg }, [])
  else
    match outcome with
    | StreamOutcome.ok chunks =>
        ({ s with error := none, isLoading := false,
                  story := foldConcat "" chunks },
         Effect.setStory ""
           :: Effect.streamRequest "gemini-2.5-flash"
                (mkPrompt s.name s.age s.interests) systemInstruction
           :: (prefixConcatsFrom "" chunks).map Effect.setStory)
    | StreamOutcome.failAfter chunks =>
        ({ s with error := some genErrorMsg, isLoading := false,
                  story := foldConcat "" chunks },
         Effect.setStory ""
           :: Effect.streamRequest "gemini-2.5-flash"
                (mkPrompt s.name s.age s.interests) systemInstruction
           :: (prefixConcatsFrom "" chunks).map Effect.setStory)

/-- src/index.tsx lines 57-73, `handleReadAloud`: no-op when already reading
or the story is empty; otherwise build an utterance over the full story,
store it in the ref, start playback and set `isReading`. -/
def handleReadAloud (s : AppState) : AppState × List Effect :=
  if s.isReading ∨ s.story = "" then (s, [])
  else
    ({ s with isReading := true, utterance := some s.story },
     [Effect.speak s.story])

/-- src/index.tsx lines 75-81, `handleStopReading`: only when the engine
reports `speechSynthesis.speaking`, cancel, clear `isReading` and the ref;
otherwise do nothing. -/
def handleStopReading (s : AppState) (engineSpeaking : Bool) :
    AppState × List Effect :=
  if engineSpeaking then
    ({ s with isReading := false, utterance := none }, [Effect.cancelSpeech])
  else (s, [])

/-- The story values published by a list of effects, in order. -/
def storyUpdates (es : List Effect) : List String :=
  es.filterMap fun e =>
    match e with
    | Effect.setStory v => some v
    | _ => none

/-- The prompts of the generation requests issued by a list of effects. -/
def requestPrompts (es : List Effect) : List String :=
  es.filterMap fun e =>
    match e with
    | Effect.streamRequest _ p _ => some p
    | _ => none

/-- How many speech playbacks a list of effects starts. -/
def speakCount (es : List Effect) : Nat :=
  (es.filterMap fun e =>
    match e with
    | Effect.speak t => some t
    | _ => none).length

/-- Case-insensitive prefix match: does `name` match the beginning of
`text` up to `Char.toLower`? -/
def matchesCI : List Char → List Char → Bool
  | [], _ => true
  | _ :: _, [] => false
  | a :: as, b :: bs => (a.toLower == b.toLower) && matchesCI as bs

/-- Fuel-based worker for the JS `text.split(/(name)/gi)` (no regex
metacharacters in `name`): scan left to right; at a case-insensitive
occurrence of `name` emit the accumulated plain piece and the matched
characters, then continue after the match; the piece after the last match
(possibly empty) is emitted at the end.  Fuel `text.length` always
suffices; on exhausted fuel the remainder is emitted unsplit. -/
def splitCIFuel (name : List Char) : Nat → List Char → List Char → List (List Char)
  | 0, acc, text => [acc.reverse ++ text]
  | _ + 1, acc, [] => [acc.reverse]
  | fuel + 1, acc, c :: cs =>
      if !name.isEmpty && matchesCI name (c :: cs) then
        acc.reverse :: (c :: cs).take name.length
          :: splitCIFuel name fuel [] (cs.drop (name.length - 1))
      else
        splitCIFuel name fuel (c :: acc) cs

/-- The JS split `text.split(/(name)/gi)` on character lists. -/
def splitCI (name text : List Char) : List (List Char) :=
  splitCIFuel name text.length [] text

/-- A rendered segment of the highlighted story: a plain text node or a
`strong` element. -/
inductive Seg where
  | plain (s : String)
  | emphasized (s : String)
deriving DecidableEq

/-- The text carried by a segment. -/
def Seg.text : Seg → String
  | Seg.plain s => s
  | Seg.emphasized s => s

/-- src/index.tsx lines 86-92: tag one split part, emphasized exactly when
it equals the name after `toLowerCase`. -/
def tagPart (name : List Char) (part : List Char) : Seg :=
  if part.map Char.toLower = name.map Char.toLower then
    Seg.emphasized (String.mk part)
  else
    Seg.plain (String.mk part)

/-- src/index.tsx lines 83-93, `highlightName`: if the name trims to the
empty string return the text itself (a single plain text node); otherwise
split on the name case-insensitively, keeping matches, and tag each part. -/
def highlightName (text nameToHighlight : String) : List Seg :=
  if nameToHighlight.data.all Char.isWhitespace then [Seg.plain text]
  else (splitCI nameToHighlight.data text.data).map (tagPart nameToHighlight.data)

/-- The regex metacharacters of JavaScript `RegExp`. -/
def regexMetaChars : List Char :=
  ['\\', '^', '$', '.', '|', '?', '*', '+', '(', ')', '[', ']',
   Char.ofNat 123, Char.ofNat 125]

/-- A concrete valid form state used to instantiate the theorems. -/
def demoState : AppState :=
  { name := "Lily", age := 5, interests := "dragons", story := "",
    isLoading := false, isReading := false, error := none, utterance := none }

/-- A concrete state in which the speech engine is reading while a valid
submission happens. -/
def readingState : AppState :=
  { name := "Lily", age := 5, interests := "dragons", story := "old story",
    isLoading := false, isReading := true, error := none,
    utterance := some "old story" }

/-- A concrete state holding a finished story, not currently reading. -/
def storyState : AppState :=
  { name := "Lily", age := 5, interests := "dragons",
    story := "Once upon a time", isLoading := false, isReading := false,
    error := none, utterance := none }

/-! ### Supporting lemmas -/

/-- `foldConcat` peels its accumulator off as a left factor. -/
theorem foldConcat_eq_append (cs : List String) :
    ∀ acc : String, foldConcat acc cs = acc ++ foldConcat "" cs := by
  induction cs with
  | nil => intro acc; simp [foldConcat]
  | cons c cs ih =>
      intro acc
      rw [foldConcat, foldConcat, ih (acc ++ c), ih ("" ++ c)]
      simp [String.append_assoc]

/-- `foldConcat ""` is a list-concatenation homomorphism. -/
theorem foldConcat_append (xs ys : List String) :
    foldConcat "" (xs ++ ys) = foldConcat "" xs ++ foldConcat "" ys := by
  induction xs with
  | nil => simp [foldConcat]
  | cons x xs ih =>
      rw [List.cons_append, foldConcat, foldConcat,
        foldConcat_eq_append _ ("" ++ x), foldConcat_eq_append _ ("" ++ x), ih]
      simp [String.append_assoc]

/-- The streaming loop publishes one value per chunk. -/
theorem prefixConcatsFrom_length (cs : List String) :
    ∀ acc : String, (prefixConcatsFrom acc cs).length = cs.length := by
  induction cs with
  | nil => intro acc; simp [prefixConcatsFrom]
  | cons c cs ih => intro acc; simp [prefixConcatsFrom, ih]

/-- The `i`-th published value is the fold of the first `i + 1` chunks. -/
theorem prefixConcatsFrom_get (cs : List String) :
    ∀ (acc : String) (i : Nat) (h : i < (prefixConcatsFrom acc cs).length),
      (prefixConcatsFrom acc cs).get ⟨i, h⟩ = foldConcat acc (cs.take (i + 1)) := by
  induction cs with
  | nil => intro acc i h; simp [prefixConcatsFrom] at h
  | cons c cs ih =>
      intro acc i h
      cases i with
      | zero => simp [prefixConcatsFrom, foldConcat]
      | succ j =>
          have hj : j < (prefixConcatsFrom (acc ++ c) cs).length := by
            simpa [prefixConcatsFrom] using h
          calc (prefixConcatsFrom acc (c :: cs)).get ⟨j + 1, h⟩
              = (prefixConcatsFrom (acc ++ c) cs).get ⟨j, hj⟩ := by
                simp [prefixConcatsFrom]
            _ = foldConcat (acc ++ c) (cs.take (j + 1)) := ih (acc ++ c) j hj
            _ = foldConcat acc ((c :: cs).take (j + 1 + 1)) := by
                simp [List.take_succ_cons, foldConcat]

/-- Splitting loses no characters: the parts joined give the accumulator
(reversed) followed by the remaining text, for every fuel. -/
theorem splitCIFuel_join (name : List Char) :
    ∀ (fuel : Nat) (acc text : List Char),
      (splitCIFuel name fuel acc text).flatten = acc.reverse ++ text := by
  intro fuel
  induction fuel with
  | zero => intro acc text; simp [splitCIFuel]
  | succ n ih =>
      intro acc text
      cases text with
      | nil => simp [splitCIFuel]
      | cons c cs =>
          by_cases h : (!name.isEmpty && matchesCI name (c :: cs)) = true
          · have hne : name ≠ [] := by
              intro hnil
              rw [hnil] at h
              simp [List.isEmpty] at h
            obtain ⟨k, hk⟩ : ∃ k, name.length = k + 1 := by
              cases name with
              | nil => exact absurd rfl hne
              | cons a as => exact ⟨as.length, rfl⟩
            rw [splitCIFuel, if_pos h]
            rw [List.flatten_cons, List.flatten_cons, ih [] (cs.drop (name.length - 1))]
            rw [hk]
            simp [List.take_succ_cons, List.take_append_drop]
          · rw [splitCIFuel, if_neg h, ih (c :: acc) cs]
            simp

/-- Splitting loses no characters. -/
theorem splitCI_join (name text : List Char) :
    (splitCI name text).flatten = text := by
  simpa using splitCIFuel_join name text.length [] text

/-- Tagging does not change a part's characters. -/
theorem tagPart_text (name part : List Char) :
    (tagPart name part).text = String.mk part := by
  by_cases h : part.map Char.toLower = name.map Char.toLower
  · simp [tagPart, h, Seg.text]
  · simp [tagPart, h, Seg.text]

/-- Concatenating the strings made from a list of character lists gives the
string made from their join. -/
theorem foldr_append_mk (parts : List (List Char)) :
    (parts.map String.mk).foldr (· ++ ·) "" = String.mk parts.flatten := by
  induction parts with
  | nil => rfl
  | cons p ps ih =>
      rw [List.map_cons, List.foldr_cons, ih, List.flatten_cons]
      apply String.ext
      simp [String.data_append]

/-! ### Claim theorems -/

/-- A `setStory` effect contributes its value to `storyUpdates`. -/
theorem storyUpdates_setStory_cons (v : String) (es : List Effect) :
    storyUpdates (Effect.setStory v :: es) = v :: storyUpdates es := by
  simp [storyUpdates, List.filterMap_cons]

/-- A `streamRequest` effect contributes nothing to `storyUpdates`. -/
theorem storyUpdates_streamRequest_cons (m p si : String) (es : List Effect) :
    storyUpdates (Effect.streamRequest m p si :: es) = storyUpdates es := by
  simp [storyUpdates, List.filterMap_cons]

/-- `storyUpdates` recovers the values of a run of `setStory` effects. -/
theorem storyUpdates_map_setStory (l : List String) :
    storyUpdates (l.map Effect.setStory) = l := by
  induction l with
  | nil => rfl
  | cons x xs ih => rw [List.map_cons, storyUpdates_setStory_cons, ih]

/-- A `setStory` effect contributes nothing to `requestPrompts`. -/
theorem requestPrompts_setStory_cons (v : String) (es : List Effect) :
    requestPrompts (Effect.setStory v :: es) = requestPrompts es := by
  simp [requestPrompts, List.filterMap_cons]

/-- A `streamRequest` effect contributes its prompt to `requestPrompts`. -/
theorem requestPrompts_streamRequest_cons (m p si : String) (es : List Effect) :
    requestPrompts (Effect.streamRequest m p si :: es)
      = p :: requestPrompts es := by
  simp [requestPrompts, List.filterMap_cons]

/-- A run of `setStory` effects issues no generation request. -/
theorem requestPrompts_map_setStory (l : List String) :
    requestPrompts (l.map Effect.setStory) = [] := by
  induction l with
  | nil => rfl
  | cons x xs ih => rw [List.map_cons, requestPrompts_setStory_cons, ih]

/-- Evaluation of `handleGenerateStory` on a valid submission whose stream
is exhausted normally. -/
theorem handleGenerateStory_ok (s : AppState) (chunks : List String)
    (hn : s.name ≠ "") (hi : s.interests ≠ "") :
    handleGenerateStory s (StreamOutcome.ok chunks)
      = ({ s with
            error := none,
            isLoading := false,
            story := foldConcat "" chunks },
         Effect.setStory ""
           :: Effect.streamRequest "gemini-2.5-flash"
                (mkPrompt s.name s.age s.interests) systemInstruction
           :: (prefixConcatsFrom "" chunks).map Effect.setStory) := by
  rw [handleGenerateStory.eq_def, if_neg (by simp [hn, hi])]

/-- Evaluation of `handleGenerateStory` on a valid submission whose stream
throws after delivering `chunks`. -/
theorem handleGenerateStory_fail (s : AppState) (chunks : List String)
    (hn : s.name ≠ "") (hi : s.interests ≠ "") :
    handleGenerateStory s (StreamOutcome.failAfter chunks)
      = ({ s with
            error := some genErrorMsg,
            isLoading := false,
            story := foldConcat "" chunks },
         Effect.setStory ""
           :: Effect.streamRequest "gemini-2.5-flash"
                (mkPrompt s.name s.age s.interests) systemInstruction
           :: (prefixConcatsFrom "" chunks).map Effect.setStory) := by
  rw [handleGenerateStory.eq_def, if_neg (by simp [hn, hi])]

/-- The published story values of a valid generation run are the clearing
`setStory("")` followed by one prefix concatenation per chunk. -/
theorem storyUpdates_ok (s : AppState) (chunks : List String)
    (hn : s.name ≠ "") (hi : s.interests ≠ "") :
    storyUpdates (handleGenerateStory s (StreamOutcome.ok chunks)).2
      = "" :: prefixConcatsFrom "" chunks := by
  rw [handleGenerateStory_ok s chunks hn hi]
  rw [storyUpdates_setStory_cons, storyUpdates_streamRequest_cons,
    storyUpdates_map_setStory]

/-- The `i`-th entry of the clear-then-prefixes list is the concatenation of
the first `i` chunks. -/
theorem clearThenPrefixes_get (chunks : List String) (i : Nat)
    (h : i < ("" :: prefixConcatsFrom "" chunks).length) :
    ("" :: prefixConcatsFrom "" chunks).get ⟨i, h⟩
      = foldConcat "" (chunks.take i) := by
  cases i with
  | zero => simp [foldConcat]
  | succ j =>
      have hj : j < (prefixConcatsFrom "" chunks).length := by
        simpa using h
      simpa using prefixConcatsFrom_get chunks "" j hj

/-- C1: during a single generation request every StoryText update is
append-only and applied in chunk-arrival order — the published values are
the initial clear followed by one value per chunk, the value published
after the `i`-th chunk is the concatenation of chunks `1..i`, every
published value is an exact prefix of the final text, and after stream
exhaustion StoryText equals the concatenation of all chunks. -/
theorem C1_storyText_appendOnly_in_order (s : AppState) (chunks : List String)
    (hn : s.name ≠ "") (hi : s.interests ≠ "") :
    storyUpdates (handleGenerateStory s (StreamOutcome.ok chunks)).2
      = "" :: prefixConcatsFrom "" chunks ∧
    (∀ (i : Nat) (h : i < ("" :: prefixConcatsFrom "" chunks).length),
      ("" :: prefixConcatsFrom "" chunks).get ⟨i, h⟩
        = foldConcat "" (chunks.take i)) ∧
    (∀ (i : Nat) (h : i < ("" :: prefixConcatsFrom "" chunks).length),
      ∃ t, ("" :: prefixConcatsFrom "" chunks).get ⟨i, h⟩ ++ t
        = foldConcat "" chunks) ∧
    (handleGenerateStory s (StreamOutcome.ok chunks)).1.story
      = foldConcat "" chunks := by
  refine ⟨storyUpdates_ok s chunks hn hi, clearThenPrefixes_get chunks, ?_, ?_⟩
  · intro i h
    refine ⟨foldConcat "" (chunks.drop i), ?_⟩
    rw [clearThenPrefixes_get chunks i h, ← foldConcat_append,
      List.take_append_drop]
  · simp [handleGenerateStory, hn, hi]

/-- C1 witness: instantiated at the spec's example chunks, the final
displayed story is "Once upon a time". -/
theorem C1_witness :
    demoState.name ≠ "" ∧ demoState.interests ≠ "" ∧
    (handleGenerateStory demoState
        (StreamOutcome.ok ["Once ", "upon ", "a time"])).1.story
      = "Once upon a time" := by
  refine ⟨by decide, by decide, ?_⟩
  have h := C1_storyText_appendOnly_in_order demoState
    ["Once ", "upon ", "a time"] (by decide) (by decide)
  rw [h.2.2.2]
  rfl

/-- C2: submitting with empty name or empty interests surfaces the
validation error message, performs no observable effect — in particular
zero generation requests — and leaves the loading flag, the story and the
reading flag unchanged. -/
theorem C2_validation_no_request (s : AppState) (o : StreamOutcome)
    (h : s.name = "" ∨ s.interests = "") :
    (handleGenerateStory s o).2 = [] ∧
    requestPrompts (handleGenerateStory s o).2 = [] ∧
    (handleGenerateStory s o).1.isLoading = s.isLoading ∧
    (handleGenerateStory s o).1.story = s.story ∧
    (handleGenerateStory s o).1.isReading = s.isReading ∧
    (handleGenerateStory s o).1.error = some validationMsg := by
  rw [handleGenerateStory.eq_def, if_pos h]
  simp [requestPrompts]

/-- C2 witness: a submission with an empty name issues no effect and keeps
`isLoading` false. -/
theorem C2_witness :
    ({ demoState with name := "" } : AppState).name = "" ∧
    (handleGenerateStory { demoState with name := "" }
        (StreamOutcome.ok ["x"])).2 = [] ∧
    (handleGenerateStory { demoState with name := "" }
        (StreamOutcome.ok ["x"])).1.isLoading = false := by
  have h := C2_validation_no_request { demoState with name := "" }
    (StreamOutcome.ok ["x"]) (Or.inl rfl)
  exact ⟨rfl, h.1, h.2.2.1⟩

/-- C3 counterexample: starting a valid generation from a state in which
speech is active does not force SpeechState to NotReading — `isReading` is
still true after the whole run, because `handleGenerateStory` never touches
it. -/
theorem C3_counterexample :
    (handleGenerateStory readingState
        (StreamOutcome.ok ["Hi"])).1.isReading ≠ false := by
  decide

/-- C3 amended: on every submit that passes validation, StoryText is
cleared before any chunk is appended — the first observable effect is
`setStory("")`, so the first published story value is the empty string —
but SpeechState is left unchanged rather than forced to NotReading. -/
theorem C3_amended (s : AppState) (o : StreamOutcome)
    (hn : s.name ≠ "") (hi : s.interests ≠ "") :
    (handleGenerateStory s o).2.head? = some (Effect.setStory "") ∧
    (storyUpdates (handleGenerateStory s o).2).head? = some "" ∧
    (handleGenerateStory s o).1.isReading = s.isReading := by
  cases o with
  | ok chunks =>
      rw [handleGenerateStory_ok s chunks hn hi]
      refine ⟨rfl, ?_, rfl⟩
      rw [storyUpdates_setStory_cons]
      rfl
  | failAfter chunks =>
      rw [handleGenerateStory_fail s chunks hn hi]
      refine ⟨rfl, ?_, rfl⟩
      rw [storyUpdates_setStory_cons]
      rfl

/-- C3 witness: from the concrete reading state, the first effect of a
valid generation is the story clear, and `isReading` keeps its old value. -/
theorem C3_witness :
    readingState.name ≠ "" ∧ readingState.interests ≠ "" ∧
    ((handleGenerateStory readingState
        (StreamOutcome.ok ["Hi"])).2.head? = some (Effect.setStory "") ∧
      (handleGenerateStory readingState
        (StreamOutcome.ok ["Hi"])).1.isReading = readingState.isReading) := by
  refine ⟨by decide, by decide, ?_⟩
  have h := C3_amended readingState (StreamOutcome.ok ["Hi"])
    (by decide) (by decide)
  exact ⟨h.1, h.2.2⟩

/-- C4: a valid generation whose stream is exhausted without error ends in
RequestState Idle; one whose stream fails after any number of chunks ends
in RequestState Error with the user-facing message, with StoryText exactly
the concatenation of the chunks received before the failure, and with no
story update beyond those chunks. -/
theorem C4_terminal_state (s : AppState) (chunks : List String)
    (hn : s.name ≠ "") (hi : s.interests ≠ "") :
    requestStateOf (handleGenerateStory s (StreamOutcome.ok chunks)).1
      = RequestState.Idle ∧
    requestStateOf (handleGenerateStory s (StreamOutcome.failAfter chunks)).1
      = RequestState.Error genErrorMsg ∧
    (handleGenerateStory s (StreamOutcome.failAfter chunks)).1.story
      = foldConcat "" chunks ∧
    storyUpdates (handleGenerateStory s (StreamOutcome.failAfter chunks)).2
      = "" :: prefixConcatsFrom "" chunks := by
  refine ⟨?_, ?_, ?_, ?_⟩
  · rw [handleGenerateStory_ok s chunks hn hi]
    rfl
  · rw [handleGenerateStory_fail s chunks hn hi]
    rfl
  · rw [handleGenerateStory_fail s chunks hn hi]
  · rw [handleGenerateStory_fail s chunks hn hi]
    rw [storyUpdates_setStory_cons, storyUpdates_streamRequest_cons,
      storyUpdates_map_setStory]

/-- C4 witness: at the concrete state, exhaustion yields Idle and a failure
after one chunk yields the error message with only that chunk displayed. -/
theorem C4_witness :
    demoState.name ≠ "" ∧ demoState.interests ≠ "" ∧
    (requestStateOf (handleGenerateStory demoState
        (StreamOutcome.ok ["Once "])).1 = RequestState.Idle ∧
      (handleGenerateStory demoState
        (StreamOutcome.failAfter ["Once "])).1.story = "Once ") := by
  refine ⟨by decide, by decide, ?_⟩
  have h := C4_terminal_state demoState ["Once "] (by decide) (by decide)
  refine ⟨h.1, ?_⟩
  rw [h.2.2.1]
  rfl

/-- C5: every valid submission issues exactly one generation request, whose
prompt contains the name, the age and the interests verbatim. -/
theorem C5_one_request_prompt_verbatim (s : AppState) (o : StreamOutcome)
    (hn : s.name ≠ "") (hi : s.interests ≠ "") :
    requestPrompts (handleGenerateStory s o).2
      = [mkPrompt s.name s.age s.interests] ∧
    ∃ p1 p2 p3 p4 : String,
      mkPrompt s.name s.age s.interests
        = p1 ++ (s.name ++ (p2 ++ (toString s.age
            ++ (p3 ++ (s.interests ++ p4))))) := by
  constructor
  · cases o with
    | ok chunks =>
        rw [handleGenerateStory_ok s chunks hn hi]
        rw [requestPrompts_setStory_cons, requestPrompts_streamRequest_cons,
          requestPrompts_map_setStory]
    | failAfter chunks =>
        rw [handleGenerateStory_fail s chunks hn hi]
        rw [requestPrompts_setStory_cons, requestPrompts_streamRequest_cons,
          requestPrompts_map_setStory]
  · refine ⟨"Create a short, magical story for ", ", who is ",
      " years old and loves ",
      ". Make sure " ++ (s.name ++ " is the hero of the story."), ?_⟩
    simp [mkPrompt, String.append_assoc]

/-- C5 witness: at the concrete state, the single request's prompt is the
fully interpolated sentence. -/
theorem C5_witness :
    demoState.name ≠ "" ∧ demoState.interests ≠ "" ∧
    requestPrompts (handleGenerateStory demoState
        (StreamOutcome.ok ["Once "])).2
      = ["Create a short, magical story for Lily, who is 5 years old and loves dragons. Make sure Lily is the hero of the story."] := by
  refine ⟨by decide, by decide, ?_⟩
  have h := C5_one_request_prompt_verbatim demoState
    (StreamOutcome.ok ["Once "]) (by decide) (by decide)
  rw [h.1]
  rfl

/-- C6 counterexample: the JS `split` with a capturing group keeps the empty
piece before a match at position 0, so the segment list is not the claimed
four-segment list — it carries a leading empty plain segment. -/
theorem C6_counterexample :
    highlightName "Lily met a dragon. lily smiled." "Lily"
      ≠ [Seg.emphasized "Lily", Seg.plain " met a dragon. ",
         Seg.emphasized "lily", Seg.plain " smiled."] := by
  decide

/-- C6 amended: `highlightName` performs a case-insensitive whole-substring
left-to-right greedy split of the text on the name, tagging matches
emphasized and the rest plain, where the split keeps the (possibly empty)
pieces between, before and after matches; on the spec's example it yields a
leading empty plain segment followed by the four claimed segments. -/
theorem C6_amended :
    highlightName "Lily met a dragon. lily smiled." "Lily"
      = [Seg.plain "", Seg.emphasized "Lily", Seg.plain " met a dragon. ",
         Seg.emphasized "lily", Seg.plain " smiled."] := by
  decide

/-- C7 counterexample: when the speech engine does not report an active
playback, `handleStopReading` is a no-op, so SpeechState is not NotReading
after the call — the claim's "unconditionally" fails. -/
theorem C7_counterexample :
    (handleStopReading readingState false).1.isReading ≠ false := by
  decide

/-- C7 amended: if the engine reports an active playback, `stop` cancels it
and sets SpeechState to NotReading (clearing the stored utterance);
otherwise `stop` changes nothing — SpeechState keeps its old value. -/
theorem C7_amended (s : AppState) (engineSpeaking : Bool) :
    (engineSpeaking = true →
      (handleStopReading s engineSpeaking).2 = [Effect.cancelSpeech] ∧
      (handleStopReading s engineSpeaking).1.isReading = false ∧
      (handleStopReading s engineSpeaking).1.utterance = none) ∧
    (engineSpeaking = false →
      handleStopReading s engineSpeaking = (s, [])) := by
  constructor
  · intro h
    subst h
    simp [handleStopReading]
  · intro h
    subst h
    simp [handleStopReading]

/-- C7 witness: with the engine active, stopping from the concrete reading
state cancels the playback and clears `isReading`. -/
theorem C7_witness :
    (handleStopReading readingState true).2 = [Effect.cancelSpeech] ∧
    (handleStopReading readingState true).1.isReading = false := by
  have h := C7_amended readingState true
  exact ⟨(h.1 rfl).1, (h.1 rfl).2.1⟩

/-- C8: `speak` is a no-op when already reading or when the story is empty
(no state change, no effect), and two calls in succession with no
completion callback in between start at most one playback — exactly one
when the first call was allowed to start. -/
theorem C8_speak_noop_single_playback (s : AppState) :
    (s.isReading = true ∨ s.story = "" → handleReadAloud s = (s, [])) ∧
    speakCount ((handleReadAloud s).2
      ++ (handleReadAloud (handleReadAloud s).1).2) ≤ 1 ∧
    (s.isReading = false ∧ s.story ≠ "" →
      speakCount ((handleReadAloud s).2
        ++ (handleReadAloud (handleReadAloud s).1).2) = 1) := by
  by_cases hcond : s.isReading = true ∨ s.story = ""
  · have h1 : handleReadAloud s = (s, []) := by
      unfold handleReadAloud
      rw [if_pos hcond]
    refine ⟨fun _ => h1, ?_, ?_⟩
    · rw [h1, h1]
      simp [speakCount]
    · rintro ⟨hnr, hns⟩
      rcases hcond with hc | hc
      · exact absurd hc (by simp [hnr])
      · exact absurd hc hns
  · have h1 : handleReadAloud s
        = ({ s with isReading := true, utterance := some s.story },
           [Effect.speak s.story]) := by
      unfold handleReadAloud
      rw [if_neg hcond]
    have h2 : handleReadAloud
        { s with isReading := true, utterance := some s.story }
        = ({ s with isReading := true, utterance := some s.story }, []) := by
      unfold handleReadAloud
      rw [if_pos (Or.inl rfl)]
    refine ⟨fun hc => absurd hc hcond, ?_, fun _ => ?_⟩
    · rw [h1]
      rw [h2]
      simp [speakCount, List.filterMap_cons]
    · rw [h1]
      rw [h2]
      simp [speakCount, List.filterMap_cons]

/-- C8 witness: from the concrete story-holding state, two successive
read-aloud calls start exactly one playback. -/
theorem C8_witness :
    (storyState.isReading = false ∧ storyState.story ≠ "") ∧
    speakCount ((handleReadAloud storyState).2
      ++ (handleReadAloud (handleReadAloud storyState).1).2) = 1 := by
  refine ⟨⟨by decide, by decide⟩, ?_⟩
  exact (C8_speak_noop_single_playback storyState).2.2 ⟨by decide, by decide⟩

/-- C9: when the name is empty or consists only of whitespace,
`highlightName` returns the whole text as a single plain segment. -/
theorem C9_blank_name_single_plain (text name : String)
    (h : name.data.all Char.isWhitespace = true) :
    highlightName text name = [Seg.plain text] := by
  unfold highlightName
  rw [if_pos h]

/-- C9 witness: a whitespace-only name leaves the text as one plain
segment. -/
theorem C9_witness :
    (" ".data.all Char.isWhitespace = true) ∧
    highlightName "Lily met a dragon." " "
      = [Seg.plain "Lily met a dragon."] :=
  ⟨by decide, C9_blank_name_single_plain "Lily met a dragon." " " (by decide)⟩

/-- C10: for a non-empty, non-whitespace name without regex
metacharacters, concatenating the segments of `highlightName` in order
recovers the text exactly — highlighting never inserts, drops or reorders
characters. -/
theorem C10_segments_concat_eq_text (text name : String)
    (_h1 : name ≠ "")
    (h2 : ¬ name.data.all Char.isWhitespace = true)
    (_h3 : name.data.all (fun c => !(regexMetaChars.contains c)) = true) :
    ((highlightName text name).map Seg.text).foldr (· ++ ·) "" = text := by
  unfold highlightName
  rw [if_neg h2]
  rw [List.map_map]
  have hmap : (splitCI name.data text.data).map (Seg.text ∘ tagPart name.data)
      = (splitCI name.data text.data).map String.mk := by
    apply List.map_congr_left
    intro part _
    exact tagPart_text name.data part
  rw [hmap, foldr_append_mk, splitCI_join]

/-- C10 witness: on the spec's example the segment texts concatenate back
to the original sentence. -/
theorem C10_witness :
    ("Lily" ≠ "" ∧ ¬ "Lily".data.all Char.isWhitespace = true ∧
      "Lily".data.all (fun c => !(regexMetaChars.contains c)) = true) ∧
    ((highlightName "Lily met a dragon. lily smiled." "Lily").map
        Seg.text).foldr (· ++ ·) ""
      = "Lily met a dragon. lily smiled." := by
  refine ⟨⟨by decide, by decide, by decide⟩, ?_⟩
  exact C10_segments_concat_eq_text "Lily met a dragon. lily smiled." "Lily"
    (by decide) (by decide) (by decide)
